import Mathlib

set_option linter.unusedVariables false

/-!
Verification of the visual-regression testing orchestrator: a shallow
embedding of its comparison engine, screenshot service, worker pool,
stabilizer scroll loop, interaction executor and URL utilities, with
theorems settling the specified properties.

Machine integers are modelled as `Nat`/`Int`, JavaScript floating-point
ratios as `Rat` (the thresholds and pixel counts involved are exact in
every branch the code takes), the file system as a partial map from path
strings to decoded PNG images, and the external diff primitives
(pixelmatch, odiff) as oracle parameters constrained only where their
documented contract is needed.
-/

namespace VRT

/-- A decoded PNG image: width, height and raw pixel data. -/
structure Image where
  width : Nat
  height : Nat
  data : List Nat
deriving DecidableEq

/-- The file system, as a partial map from paths to decoded images. -/
def FileSys : Type := String → Option Image

/-- Comparison thresholds from the configuration (`config.comparison`). -/
structure ComparisonConfig where
  threshold : Rat
  maxDiffPixels : Nat
  maxDiffPixelRatio : Rat
deriving DecidableEq

/-- The slice of `VrtConfig` used by the comparison service. -/
structure VrtConfig where
  baselineDir : String
  diffDir : String
  comparison : ComparisonConfig
deriving DecidableEq

/-- Result record returned by `ComparisonService.compare`
(pixelmatch revision); `diffPixels` uses the `-1` sentinel. -/
structure ComparisonResult where
  passed : Bool
  diffPixels : Int
  diffPercentage : Rat
  totalPixels : Nat
  diffPath : Option String
deriving DecidableEq

/-- Result record returned by `ComparisonService.compareScreenshot`;
optional fields model the fields left `undefined` on some paths. -/
structure TestResult where
  scenarioId : String
  scenarioTitle : String
  viewport : String
  passed : Bool
  diffPixels : Option Int
  diffPercentage : Option Rat
  warning : Option String
  error : Option String
  screenshotPath : String
  baselinePath : String
  diffPath : Option String
deriving DecidableEq

/-- Filename built inline by both comparison-service revisions:
`scenarioId__viewportKey.png` (no sanitizing at this layer). -/
def comparisonFilename (scenarioId viewportKey : String) : String :=
  scenarioId ++ "__" ++ viewportKey ++ ".png"

/-- Baseline path `path.join(config.baselineDir, filename)`. -/
def baselinePathOf (config : VrtConfig) (scenarioId viewportKey : String) : String :=
  config.baselineDir ++ "/" ++ comparisonFilename scenarioId viewportKey

/-- Diff path `path.join(config.diffDir, filename)`. -/
def diffPathOf (config : VrtConfig) (scenarioId viewportKey : String) : String :=
  config.diffDir ++ "/" ++ comparisonFilename scenarioId viewportKey

namespace ComparisonTs

/-- Embedding of `ComparisonService.evaluatePass` (pixelmatch revision).
`diffPercentage` is received but unused, as in the source. -/
def evaluatePass (config : VrtConfig) (diffPixels : Nat) (diffPercentage : Rat)
    (totalPixels : Nat) : Bool :=
  if diffPixels = 0 then
    true
  else if diffPixels > config.comparison.maxDiffPixels then
    false
  else
    -- JS computes diffPixels / totalPixels in floating point; with
    -- diffPixels > 0 and totalPixels = 0 that is Infinity, which exceeds
    -- any finite configured ratio, so the comparison yields fail.
    if totalPixels = 0 then
      false
    else if (diffPixels : Rat) / (totalPixels : Rat) > config.comparison.maxDiffPixelRatio then
      false
    else
      true

/-- Embedding of `ComparisonService.compare` (pixelmatch revision).
`pixelmatch` is an external primitive, modelled as an oracle giving the
count of differing pixels for two same-sized images. Throwing is
modelled with `Except`. -/
def compare (config : VrtConfig) (pixelmatchOracle : Image → Image → Nat)
    (fsys : FileSys) (baselinePath screenshotPath : String)
    (diffPath : Option String) : Except String ComparisonResult :=
  match fsys baselinePath with
  | none =>
      .ok { passed := false, diffPixels := -1, diffPercentage := 100,
            totalPixels := 0, diffPath := none }
  | some baseline =>
      match fsys screenshotPath with
      | none => .error ("Screenshot not found: " ++ screenshotPath)
      | some screenshot =>
          if baseline.width ≠ screenshot.width ∨ baseline.height ≠ screenshot.height then
            .ok { passed := false, diffPixels := -1, diffPercentage := 100,
                  totalPixels := baseline.width * baseline.height, diffPath := none }
          else
            let totalPixels := baseline.width * baseline.height
            let diffPixels := pixelmatchOracle baseline screenshot
            let diffPercentage := ((diffPixels : Rat) / (totalPixels : Rat)) * 100
            let passed := evaluatePass config diffPixels diffPercentage totalPixels
            let savedDiffPath := match diffPath with
              | some p => if diffPixels > 0 then some p else none
              | none => none
            .ok { passed := passed, diffPixels := (diffPixels : Int),
                  diffPercentage := diffPercentage, totalPixels := totalPixels,
                  diffPath := savedDiffPath }

/-- Embedding of `ComparisonService.compareScreenshot` (pixelmatch
revision): resolves paths, short-circuits on a missing baseline, and
otherwise wraps `compare`, converting a thrown error into an
error-carrying result. -/
def compareScreenshot (config : VrtConfig) (pixelmatchOracle : Image → Image → Nat)
    (fsys : FileSys) (scenarioId viewportKey screenshotPath : String) : TestResult :=
  let baselinePath := baselinePathOf config scenarioId viewportKey
  let diffPath := diffPathOf config scenarioId viewportKey
  if (fsys baselinePath).isNone then
    { scenarioId := scenarioId, scenarioTitle := scenarioId, viewport := viewportKey,
      passed := false, diffPixels := none, diffPercentage := none,
      warning := none, error := some "Baseline not found. Run generate-baseline first.",
      screenshotPath := screenshotPath, baselinePath := baselinePath, diffPath := none }
  else
    match compare config pixelmatchOracle fsys baselinePath screenshotPath (some diffPath) with
    | .ok result =>
        { scenarioId := scenarioId, scenarioTitle := scenarioId, viewport := viewportKey,
          passed := result.passed, diffPixels := some result.diffPixels,
          diffPercentage := some result.diffPercentage,
          warning := none, error := none,
          screenshotPath := screenshotPath, baselinePath := baselinePath,
          diffPath := result.diffPath }
    | .error message =>
        { scenarioId := scenarioId, scenarioTitle := scenarioId, viewport := viewportKey,
          passed := false, diffPixels := none, diffPercentage := none,
          warning := none, error := some message,
          screenshotPath := screenshotPath, baselinePath := baselinePath, diffPath := none }

/-- Embedding of `ComparisonService.copyToBaseline`: a whole-file copy of
the screenshot into the baseline directory, returning the updated file
system and the baseline path. `fs.copyFileSync` requires the source to
exist; callers establish that. -/
def copyToBaseline (config : VrtConfig) (fsys : FileSys)
    (screenshotPath scenarioId viewportKey : String) : FileSys × String :=
  let baselinePath := baselinePathOf config scenarioId viewportKey
  (fun p => if p = baselinePath then fsys screenshotPath else fsys p, baselinePath)

end ComparisonTs

/-- Outcome of the external `odiff-bin` `compare` call, as consumed by
the ODiff revision of the comparison service. -/
inductive OdiffResult where
  | imagesMatch : OdiffResult
  | layoutDiff : OdiffResult
  | pixelDiff (diffCount : Nat) (diffPercentage : Rat) : OdiffResult
  | fileNotExists (file : String) : OdiffResult
deriving DecidableEq

/-- Model of the external `odiff-bin` `compare` primitive as configured
by the service (`failOnLayoutDiff: true`): images that differ in width
or height are reported as `layout-diff`; the pixel-level outcome on
same-sized images is an oracle parameter. -/
def odiffRun (oracle : Image → Image → OdiffResult) (baseline screenshot : Image) :
    OdiffResult :=
  if baseline.width = screenshot.width ∧ baseline.height = screenshot.height then
    oracle baseline screenshot
  else
    .layoutDiff

/-- Result record returned by the ODiff revision of
`ComparisonService.compare`, which carries `error` and `warning`
fields. -/
structure OdiffCompareResult where
  passed : Bool
  diffPixels : Int
  diffPercentage : Rat
  totalPixels : Nat
  diffPath : Option String
  error : Option String
  warning : Option String
deriving DecidableEq

namespace ComparisonOdiff

/-- Embedding of `ComparisonService.evaluatePass` (ODiff revision):
identical to the pixelmatch revision except that the ratio is taken to
be `0` when the total pixel count is `0`. -/
def evaluatePass (config : VrtConfig) (diffPixels : Nat) (diffPercentage : Rat)
    (totalPixels : Nat) : Bool :=
  if diffPixels = 0 then
    true
  else if diffPixels > config.comparison.maxDiffPixels then
    false
  else
    let diffRatio : Rat :=
      if totalPixels > 0 then (diffPixels : Rat) / (totalPixels : Rat) else 0
    if diffRatio > config.comparison.maxDiffPixelRatio then
      false
    else
      true

/-- Embedding of `ComparisonService.compare` (ODiff revision): missing
files short-circuit, then the ODiff outcome is dispatched — matching
images and layout (dimension) differences pass, the latter with a
`dimension-mismatch` warning; pixel differences are thresholded. The
total pixel count is reconstructed from the diff count and
percentage with `Math.round`. -/
def compare (config : VrtConfig) (oracle : Image → Image → OdiffResult)
    (fsys : FileSys) (baselinePath screenshotPath : String)
    (diffPath : Option String) : OdiffCompareResult :=
  match fsys baselinePath with
  | none =>
      { passed := false, diffPixels := -1, diffPercentage := 100, totalPixels := 0,
        diffPath := none, error := some "Baseline not found", warning := none }
  | some baseline =>
      match fsys screenshotPath with
      | none =>
          { passed := false, diffPixels := -1, diffPercentage := 100, totalPixels := 0,
            diffPath := none, error := some "Screenshot not found", warning := none }
      | some screenshot =>
          match odiffRun oracle baseline screenshot with
          | .imagesMatch =>
              { passed := true, diffPixels := 0, diffPercentage := 0, totalPixels := 0,
                diffPath := none, error := none, warning := none }
          | .layoutDiff =>
              { passed := true, diffPixels := 0, diffPercentage := 0, totalPixels := 0,
                diffPath := none, error := none, warning := some "dimension-mismatch" }
          | .fileNotExists f =>
              { passed := false, diffPixels := -1, diffPercentage := 100, totalPixels := 0,
                diffPath := none, error := some ("File not found: " ++ f), warning := none }
          | .pixelDiff diffCount diffPercentage =>
              if diffCount = 0 then
                { passed := true, diffPixels := 0, diffPercentage := 0, totalPixels := 0,
                  diffPath := none, error := none, warning := none }
              else
                let totalPixels : Nat :=
                  if diffPercentage > 0 then
                    (round ((diffCount : Rat) / (diffPercentage / 100))).toNat
                  else 0
                { passed := evaluatePass config diffCount diffPercentage totalPixels,
                  diffPixels := (diffCount : Int), diffPercentage := diffPercentage,
                  totalPixels := totalPixels, diffPath := diffPath,
                  error := none, warning := none }

/-- Embedding of `ComparisonService.compareScreenshot` (ODiff revision):
short-circuits on a missing baseline, otherwise wraps `compare`,
propagating its `warning` into the test result. -/
def compareScreenshot (config : VrtConfig) (oracle : Image → Image → OdiffResult)
    (fsys : FileSys) (scenarioId viewportKey screenshotPath : String) : TestResult :=
  let baselinePath := baselinePathOf config scenarioId viewportKey
  let diffPath := diffPathOf config scenarioId viewportKey
  if (fsys baselinePath).isNone then
    { scenarioId := scenarioId, scenarioTitle := scenarioId, viewport := viewportKey,
      passed := false, diffPixels := none, diffPercentage := none,
      warning := none, error := some "Baseline not found. Run generate-baseline first.",
      screenshotPath := screenshotPath, baselinePath := baselinePath, diffPath := none }
  else
    let result := compare config oracle fsys baselinePath screenshotPath (some diffPath)
    { scenarioId := scenarioId, scenarioTitle := scenarioId, viewport := viewportKey,
      passed := result.passed, diffPixels := some result.diffPixels,
      diffPercentage := some result.diffPercentage,
      warning := result.warning, error := none,
      screenshotPath := screenshotPath, baselinePath := baselinePath,
      diffPath := result.diffPath }

end ComparisonOdiff

/-- File system holding a 1x1 baseline and a 1x2 candidate for the same
key: a concrete dimension mismatch. -/
def mismatchFs : FileSys := fun p =>
  if p = "baseline/s__v.png" then some { width := 1, height := 1, data := [0] }
  else if p = "cand.png" then some { width := 1, height := 2, data := [0, 0] }
  else none

/-- Retry settings from the configuration (`config.retries`). -/
structure RetryConfig where
  maxRetries : Nat
  retryDelay : Nat
deriving DecidableEq

/-- Observable trace of `captureWithRetry`: the surfaced result, the
number of capture attempts performed, and the delays inserted between
consecutive attempts (in order). -/
structure RetryTrace (E A : Type) where
  result : Except E A
  attempts : Nat
  delays : List Nat

namespace ScreenshotTs

/-- Embedding of the `for (let attempt = 0; attempt <= maxRetries; ...)`
loop of `ScreenshotService.captureWithRetry`, from loop index `attempt`
on. The underlying `captureScreenshot` is modelled as a function from
the attempt number to a result (`Except.error` models a throw); a delay
of `retryDelay` is inserted after every failed non-final attempt. -/
def retryFrom {E A : Type} (cap : Nat → Except E A) (maxRetries retryDelay : Nat)
    (attempt : Nat) : RetryTrace E A :=
  match cap attempt with
  | .ok v => { result := .ok v, attempts := 1, delays := [] }
  | .error e =>
      if h : attempt < maxRetries then
        let rest := retryFrom cap maxRetries retryDelay (attempt + 1)
        { result := rest.result, attempts := rest.attempts + 1,
          delays := retryDelay :: rest.delays }
      else
        { result := .error e, attempts := 1, delays := [] }
termination_by maxRetries - attempt
decreasing_by omega

/-- Embedding of `ScreenshotService.captureWithRetry`: runs the retry
loop from attempt 0. -/
def captureWithRetry {E A : Type} (cap : Nat → Except E A) (retries : RetryConfig) :
    RetryTrace E A :=
  retryFrom cap retries.maxRetries retries.retryDelay 0

/-- Set of characters the filename sanitizer keeps, from the regex
`[^a-zA-Z0-9_-]`. -/
def isSafeFilenameChar (c : Char) : Bool :=
  decide (('a' ≤ c ∧ c ≤ 'z') ∨ ('A' ≤ c ∧ c ≤ 'Z') ∨ ('0' ≤ c ∧ c ≤ '9') ∨
    c = '_' ∨ c = '-')

/-- Embedding of `scenarioId.replace(/[^a-zA-Z0-9_-]/g, '_')`: every
character outside the safe set becomes an underscore. -/
def sanitizeFilenameComponent (s : String) : String :=
  String.mk (s.data.map fun c => if isSafeFilenameChar c then c else '_')

/-- Embedding of `ScreenshotService.generateFilename`. -/
def generateFilename (scenarioId viewportKey : String) : String :=
  sanitizeFilenameComponent scenarioId ++ "__" ++ sanitizeFilenameComponent viewportKey ++ ".png"

/-- Inputs on which the sanitizer is the identity and which avoid the
`__` separator: every character is safe and not an underscore. -/
def underscoreFreeSafe (s : String) : Bool :=
  s.data.all fun c => isSafeFilenameChar c && !decide (c = '_')

end ScreenshotTs

/-- One scripted interaction, as fetched from the API; `type` is an
open string so unknown kinds can occur. -/
structure Interaction where
  type : String
  selector : Option String
  value : Option String
  wait_ms : Option Int
deriving DecidableEq

/-- Observable page effects of the interaction executor; `warn` models
the `console.warn` call. -/
inductive PageEvent where
  | click (selector : String)
  | fill (selector : String) (value : String)
  | hover (selector : String)
  | waitFor (ms : Int)
  | warn (message : String)
deriving DecidableEq

namespace ScreenshotTs

/-- JS truthiness of an optional string: present and non-empty. -/
def truthyStr : Option String → Bool
  | none => false
  | some s => !decide (s = "")

/-- Events of the `switch (interaction.type)` statement for one
interaction. -/
def actionEvents (i : Interaction) : List PageEvent :=
  if i.type = "click" then
    match i.selector with
    | some s => if s = "" then [] else [.click s]
    | none => []
  else if i.type = "type" then
    match i.selector, i.value with
    | some s, some v => if s = "" then [] else [.fill s v]
    | _, _ => []
  else if i.type = "mouseover" then
    match i.selector with
    | some s => if s = "" then [] else [.hover s]
    | none => []
  else if i.type = "wait" then
    match i.wait_ms with
    | some w => if 0 < w then [.waitFor w] else []
    | none => []
  else
    [.warn ("Unknown interaction type: " ++ i.type)]

/-- Events of the trailing settle wait applied after every non-`wait`
interaction that declares a positive `wait_ms`. -/
def settleEvents (i : Interaction) : List PageEvent :=
  if i.type ≠ "wait" then
    match i.wait_ms with
    | some w => if 0 < w then [.waitFor w] else []
    | none => []
  else
    []

/-- Embedding of one iteration of the `executeInteractions` loop body. -/
def runInteraction (i : Interaction) : List PageEvent :=
  actionEvents i ++ settleEvents i

/-- Embedding of `ScreenshotService.executeInteractions`: the loop over
the declared interactions, in order. -/
def executeInteractions : List Interaction → List PageEvent
  | [] => []
  | i :: rest => runInteraction i ++ executeInteractions rest

end ScreenshotTs

/-- Components `new URL(originalUrl)` exposes and `replaceDomain`
consumes: `pathname`, `search` and `hash`. -/
structure UrlParts where
  pathname : String
  search : String
  hash : String
deriving DecidableEq

namespace UrlTs

/-- Whitespace removed by JavaScript's `String.trim`: ECMAScript
WhiteSpace — TAB U+0009, VT U+000B, FF U+000C, SP U+0020, NBSP U+00A0,
ZWNBSP/BOM U+FEFF and every Unicode Space_Separator (U+1680,
U+2000–U+200A, U+202F, U+205F, U+3000) — plus LineTerminator — LF
U+000A, CR U+000D, LS U+2028, PS U+2029. -/
def isJsWhitespace (c : Char) : Bool :=
  decide (c.toNat = 0x09 ∨ c.toNat = 0x0A ∨ c.toNat = 0x0B ∨ c.toNat = 0x0C ∨
    c.toNat = 0x0D ∨ c.toNat = 0x20 ∨ c.toNat = 0xA0 ∨ c.toNat = 0x1680 ∨
    (0x2000 ≤ c.toNat ∧ c.toNat ≤ 0x200A) ∨ c.toNat = 0x2028 ∨ c.toNat = 0x2029 ∨
    c.toNat = 0x202F ∨ c.toNat = 0x205F ∨ c.toNat = 0x3000 ∨ c.toNat = 0xFEFF)

/-- Embedding of `newDomain.replace(/\/+$/, '')`: all trailing slashes
removed. -/
def stripTrailingSlashes (s : String) : String :=
  String.mk (s.data.reverse.dropWhile (fun c => c = '/')).reverse

/-- Embedding of `replaceDomain` from the URL utilities. The WHATWG URL
parser is external and modelled as a parameter returning the parsed
components, or `none` when parsing throws; `none` for `newDomain`
models both `null` and `undefined`. -/
def replaceDomain (parseUrl : String → Option UrlParts)
    (originalUrl : String) (newDomain : Option String) : String :=
  match newDomain with
  | none => originalUrl
  | some d =>
      if d = "" ∨ d.data.all isJsWhitespace then
        originalUrl
      else
        match parseUrl originalUrl with
        | none => originalUrl
        | some parts =>
            stripTrailingSlashes d ++ parts.pathname ++ parts.search ++ parts.hash

end UrlTs

/-- URL parser fixture used to instantiate hypotheses at concrete
inputs. -/
def parseFixture : String → Option UrlParts := fun u =>
  if u = "https://local.site/page?q=1#s" then
    some { pathname := "/page", search := "?q=1", hash := "#s" }
  else none

/-- A complete single-worker schedule for a two-task pool: claim, record,
claim, record, claim past the end. -/
def schedFixture : List (Fin 1) := [0, 0, 0, 0, 0]

/-- Status of one logical worker of the pool: ready to claim the next
task index, executing a claimed task, or terminated after drawing an
index past the end of the task list. -/
inductive WStatus where
  | idle : WStatus
  | executing (taskIdx : Nat) : WStatus
  | done : WStatus
deriving DecidableEq

/-- Shared state of the worker pool: the shared task cursor
(`taskIndex.value`), each worker's status, the shared results
accumulator, and the shared completed counter. Tasks are identified by
their index in the task list (`0 ≤ i < N`); a result records the task
index and whether the capture succeeded (the `try` branch) or failed
(the `catch` branch) — both branches append exactly one result. -/
structure PoolState (W : Nat) where
  taskIndex : Nat
  workers : Fin W → WStatus
  results : List (Nat × Bool)
  completed : Nat

/-- One scheduled step of worker `w` in the pool of `ScreenshotService`
(`worker`) and of the run-tests orchestrator (`processTask`). An idle
worker performs the atomic claim `const currentIndex = taskIndex.value++`
followed by the bounds check (JavaScript's single-threaded event loop
makes the read-and-increment one indivisible step); breaking past the
end makes the worker `done`. An executing worker finishes its task
(capture and/or compare, whose outcome is the oracle `outcome`) and
appends exactly one result — the suspension between the claim and the
append is what the scheduler interleaves. A done worker takes no
step. -/
def poolStep (N : Nat) (outcome : Nat → Bool) {W : Nat} (s : PoolState W) (w : Fin W) :
    PoolState W :=
  match s.workers w with
  | .idle =>
      let currentIndex := s.taskIndex
      if currentIndex ≥ N then
        { s with taskIndex := currentIndex + 1,
                 workers := Function.update s.workers w .done }
      else
        { s with taskIndex := currentIndex + 1,
                 workers := Function.update s.workers w (.executing currentIndex) }
  | .executing i =>
      { s with results := s.results ++ [(i, outcome i)],
               completed := s.completed + 1,
               workers := Function.update s.workers w .idle }
  | .done => s

/-- Initial pool state: cursor at 0, all workers idle, no results. -/
def poolInit (W : Nat) : PoolState W :=
  { taskIndex := 0, workers := fun _ => .idle, results := [], completed := 0 }

/-- A pool execution under an arbitrary interleaving: the schedule lists
which worker moves at each step. -/
def poolRun (N : Nat) (outcome : Nat → Bool) {W : Nat} (sched : List (Fin W)) :
    PoolState W :=
  sched.foldl (poolStep N outcome) (poolInit W)

/-- Task indices held by one worker, as a multiset. -/
def execMs : WStatus → Multiset Nat
  | .executing i => {i}
  | _ => 0

/-- Task indices currently claimed but not yet recorded, across all
workers. -/
def inflight {W : Nat} (s : PoolState W) : Multiset Nat :=
  ∑ w : Fin W, execMs (s.workers w)

/-- Pool invariant: recorded plus in-flight task indices are exactly the
cursor values below `N` handed out so far; a done worker has seen the
cursor past `N`; the completed counter counts results. -/
def PoolInv (N : Nat) {W : Nat} (s : PoolState W) : Prop :=
  ((s.results.map Prod.fst : List Nat) : Multiset Nat) + inflight s =
      Multiset.range (min s.taskIndex N) ∧
  (∀ w, s.workers w = .done → N ≤ s.taskIndex) ∧
  s.completed = s.results.length

namespace Stabilizer

/-- Total scrolled by the unprotected `triggerLazyLoading` timer loop of
`screenshot.ts` after `n` ticks (`totalHeight += distance`, with
`distance = 300`). -/
def unprotectedTotalHeight : Nat → Nat
  | 0 => 0
  | n + 1 => unprotectedTotalHeight n + 300

/-- Exit condition of the unprotected loop at tick `n`: after this
tick's increment, the running total covers `document.body.scrollHeight`
as read at that tick (the page may change height between ticks, so the
height is a function of the tick number). -/
def unprotectedStops (scrollHeight : Nat → Nat) (n : Nat) : Prop :=
  scrollHeight n ≤ unprotectedTotalHeight (n + 1)

/-- The unprotected loop terminates exactly when some tick satisfies its
only exit condition. -/
def unprotectedTerminates (scrollHeight : Nat → Nat) : Prop :=
  ∃ n, unprotectedStops scrollHeight n

/-- A page whose scroll height grows without bound, always ahead of the
loop's running total. -/
def runawayPage : Nat → Nat := fun n => 300 * (n + 2)

/-- Outcome of one timer tick of the protected `triggerLazyLoading`
loop: either the loop continues with a new running total, or it clears
the timer, scrolls to `scrollY` and resolves. -/
inductive ScrollTick where
  | next (totalHeight : Nat) : ScrollTick
  | finished (scrollY : Nat) : ScrollTick
deriving DecidableEq

/-- One timer tick of the protected `triggerLazyLoading` (the revision
with `maxScrollTime`/`maxScrollHeight` guards): first the wall-clock
timeout check (`Date.now() - startTime > 30000`, with the elapsed time
at each tick an arbitrary function), then the 50000px ceiling on the
total scrolled, then the scroll-by-300 with the document-height check.
Every exit path runs `window.scrollTo(0, 0)` before resolving, encoded
as `finished 0`. -/
def protectedTick (elapsed scrollHeight : Nat → Nat) (n totalHeight : Nat) : ScrollTick :=
  if 30000 < elapsed n then .finished 0
  else if 50000 ≤ totalHeight then .finished 0
  else if scrollHeight n ≤ totalHeight + 300 then .finished 0
  else .next (totalHeight + 300)

/-- Running total entering tick `n` of the protected loop (frozen once a
tick finishes). -/
def protectedTotal (elapsed scrollHeight : Nat → Nat) : Nat → Nat
  | 0 => 0
  | n + 1 =>
      match protectedTick elapsed scrollHeight n (protectedTotal elapsed scrollHeight n) with
      | .next t => t
      | .finished _ => protectedTotal elapsed scrollHeight n

end Stabilizer

end VRT

namespace VRT

/-- Fixed configuration used to instantiate hypotheses at concrete
inputs. -/
def sampleConfig : VrtConfig :=
  { baselineDir := "baseline", diffDir := "diff",
    comparison := { threshold := 1/10, maxDiffPixels := 100, maxDiffPixelRatio := 1/10 } }

/-- C1: for every comparison that reaches pixel comparison (so the total
pixel count is positive) and all configured thresholds, `evaluatePass`
returns pass exactly when the diff count is zero, or it is within both
the absolute pixel budget and the relative ratio budget. -/
theorem evaluatePass_pass_iff (config : VrtConfig) (diffPixels totalPixels : Nat)
    (diffPercentage : Rat) (htotal : 0 < totalPixels) :
    ComparisonTs.evaluatePass config diffPixels diffPercentage totalPixels = true ↔
      (diffPixels = 0 ∨
        (diffPixels ≤ config.comparison.maxDiffPixels ∧
          (diffPixels : Rat) / (totalPixels : Rat) ≤ config.comparison.maxDiffPixelRatio)) := by
  unfold ComparisonTs.evaluatePass
  rcases Nat.eq_zero_or_pos diffPixels with h0 | hpos
  · simp [h0]
  · have hne : diffPixels ≠ 0 := Nat.pos_iff_ne_zero.mp hpos
    have htne : totalPixels ≠ 0 := Nat.pos_iff_ne_zero.mp htotal
    by_cases hmax : diffPixels > config.comparison.maxDiffPixels
    · simp only [if_neg hne, if_pos hmax]
      constructor
      · intro h; exact absurd h (by simp)
      · rintro (h | ⟨hle, _⟩)
        · exact absurd h hne
        · exact absurd hle (not_le.mpr hmax)
    · by_cases hratio :
        (diffPixels : Rat) / (totalPixels : Rat) > config.comparison.maxDiffPixelRatio
      · simp only [if_neg hne, if_neg hmax, if_neg htne, if_pos hratio]
        constructor
        · intro h; exact absurd h (by simp)
        · rintro (h | ⟨_, hle⟩)
          · exact absurd h hne
          · exact absurd hle (not_le.mpr hratio)
      · simp only [if_neg hne, if_neg hmax, if_neg htne, if_neg hratio]
        constructor
        · intro _
          exact Or.inr ⟨not_lt.mp hmax, not_lt.mp hratio⟩
        · intro _; trivial

/-- Witness for C1: the criterion instantiated at a concrete
configuration and a concrete 5-of-1000 diff. -/
theorem evaluatePass_pass_iff_witness :
    ComparisonTs.evaluatePass sampleConfig 5 (1/2) 1000 = true ↔
      (5 = 0 ∨
        (5 ≤ sampleConfig.comparison.maxDiffPixels ∧
          (5 : Rat) / (1000 : Rat) ≤ sampleConfig.comparison.maxDiffPixelRatio)) :=
  evaluatePass_pass_iff sampleConfig 5 1000 (1/2) (by decide)

/-- C2, counterexample: in the pixelmatch revision
(`src/services/comparison.ts`), a baseline and candidate that both exist
but differ in height yield `passed = false` with a raw 100% diff
percentage and no `dimension-mismatch` warning — the claim as stated
fails on that revision. -/
theorem dimension_mismatch_hard_fail_cex :
    (ComparisonTs.compareScreenshot sampleConfig (fun _ _ => 0) mismatchFs
        "s" "v" "cand.png").passed = false ∧
    (ComparisonTs.compareScreenshot sampleConfig (fun _ _ => 0) mismatchFs
        "s" "v" "cand.png").warning = none ∧
    (ComparisonTs.compareScreenshot sampleConfig (fun _ _ => 0) mismatchFs
        "s" "v" "cand.png").diffPercentage = some 100 := by
  refine ⟨rfl, rfl, rfl⟩

/-- C2, amended: in the ODiff revision of the comparison service, for
every baseline and candidate that both exist but differ in width or
height, `compareScreenshot` returns `passed = true` with the warning
`dimension-mismatch` and a 0% diff percentage — never a raw 100%-diff
hard failure. -/
theorem dimension_mismatch_soft_pass (config : VrtConfig)
    (oracle : Image → Image → OdiffResult) (fsys : FileSys)
    (scenarioId viewportKey screenshotPath : String) (b c : Image)
    (hb : fsys (baselinePathOf config scenarioId viewportKey) = some b)
    (hc : fsys screenshotPath = some c)
    (hdim : b.width ≠ c.width ∨ b.height ≠ c.height) :
    (ComparisonOdiff.compareScreenshot config oracle fsys
        scenarioId viewportKey screenshotPath).passed = true ∧
    (ComparisonOdiff.compareScreenshot config oracle fsys
        scenarioId viewportKey screenshotPath).warning = some "dimension-mismatch" ∧
    (ComparisonOdiff.compareScreenshot config oracle fsys
        scenarioId viewportKey screenshotPath).diffPercentage = some 0 := by
  have hrun : odiffRun oracle b c = .layoutDiff := by
    unfold odiffRun
    rw [if_neg]
    intro ⟨hw, hh⟩
    rcases hdim with h | h
    · exact h hw
    · exact h hh
  unfold ComparisonOdiff.compareScreenshot ComparisonOdiff.compare
  simp only [hb, hc, Option.isNone_some, Bool.false_eq_true, if_false]
  rw [hrun]
  exact ⟨rfl, rfl, rfl⟩

/-- Witness for C2's amended theorem: the soft pass at the concrete
mismatching file system. -/
theorem dimension_mismatch_soft_pass_witness :
    (ComparisonOdiff.compareScreenshot sampleConfig (fun _ _ => .imagesMatch) mismatchFs
        "s" "v" "cand.png").passed = true ∧
    (ComparisonOdiff.compareScreenshot sampleConfig (fun _ _ => .imagesMatch) mismatchFs
        "s" "v" "cand.png").warning = some "dimension-mismatch" ∧
    (ComparisonOdiff.compareScreenshot sampleConfig (fun _ _ => .imagesMatch) mismatchFs
        "s" "v" "cand.png").diffPercentage = some 0 :=
  dimension_mismatch_soft_pass sampleConfig (fun _ _ => .imagesMatch) mismatchFs
    "s" "v" "cand.png"
    { width := 1, height := 1, data := [0] } { width := 1, height := 2, data := [0, 0] }
    (by decide) (by decide) (by decide)

/-- C4: when the baseline file for a key does not exist,
`compareScreenshot` returns a failing result whose error distinctly
identifies the missing baseline, and the result does not depend on the
pixel-diff primitive — no pixel comparison is performed. -/
theorem baseline_missing_short_circuit (config : VrtConfig)
    (pixelmatchOracle : Image → Image → Nat) (fsys : FileSys)
    (scenarioId viewportKey screenshotPath : String)
    (h : fsys (baselinePathOf config scenarioId viewportKey) = none) :
    (ComparisonTs.compareScreenshot config pixelmatchOracle fsys
        scenarioId viewportKey screenshotPath).passed = false ∧
    (ComparisonTs.compareScreenshot config pixelmatchOracle fsys
        scenarioId viewportKey screenshotPath).error =
      some "Baseline not found. Run generate-baseline first." ∧
    (∀ otherOracle : Image → Image → Nat,
      ComparisonTs.compareScreenshot config pixelmatchOracle fsys
          scenarioId viewportKey screenshotPath =
        ComparisonTs.compareScreenshot config otherOracle fsys
          scenarioId viewportKey screenshotPath) := by
  unfold ComparisonTs.compareScreenshot
  simp only [h, Option.isNone_none, if_true]
  exact ⟨trivial, trivial, fun _ => trivial⟩

/-- Witness for C4: the short circuit on an empty file system. -/
theorem baseline_missing_short_circuit_witness :
    (ComparisonTs.compareScreenshot sampleConfig (fun _ _ => 0) (fun _ => none)
        "s" "v" "cand.png").passed = false ∧
    (ComparisonTs.compareScreenshot sampleConfig (fun _ _ => 0) (fun _ => none)
        "s" "v" "cand.png").error =
      some "Baseline not found. Run generate-baseline first." ∧
    (∀ otherOracle : Image → Image → Nat,
      ComparisonTs.compareScreenshot sampleConfig (fun _ _ => 0) (fun _ => none)
          "s" "v" "cand.png" =
        ComparisonTs.compareScreenshot sampleConfig otherOracle (fun _ => none)
          "s" "v" "cand.png") :=
  baseline_missing_short_circuit sampleConfig (fun _ _ => 0) (fun _ => none)
    "s" "v" "cand.png" rfl

/-- C7: after promoting a candidate to baseline with `copyToBaseline`, an
immediate `compareScreenshot` against the same unmodified candidate
passes with a zero diff count, for any pixel-diff primitive that reports
no differing pixels on identical images (as pixelmatch does). -/
theorem copy_to_baseline_roundtrip (config : VrtConfig)
    (pixelmatchOracle : Image → Image → Nat) (fsys : FileSys)
    (screenshotPath scenarioId viewportKey : String) (img : Image)
    (himg : fsys screenshotPath = some img)
    (hrefl : ∀ a, pixelmatchOracle a a = 0) :
    (ComparisonTs.compareScreenshot config pixelmatchOracle
        (ComparisonTs.copyToBaseline config fsys screenshotPath scenarioId viewportKey).1
        scenarioId viewportKey screenshotPath).passed = true ∧
    (ComparisonTs.compareScreenshot config pixelmatchOracle
        (ComparisonTs.copyToBaseline config fsys screenshotPath scenarioId viewportKey).1
        scenarioId viewportKey screenshotPath).diffPixels = some 0 := by
  have hfs2base :
      (ComparisonTs.copyToBaseline config fsys screenshotPath scenarioId viewportKey).1
        (baselinePathOf config scenarioId viewportKey) = some img := by
    show (if baselinePathOf config scenarioId viewportKey =
            baselinePathOf config scenarioId viewportKey then
          fsys screenshotPath
        else fsys (baselinePathOf config scenarioId viewportKey)) = some img
    rw [if_pos rfl]
    exact himg
  have hfs2shot :
      (ComparisonTs.copyToBaseline config fsys screenshotPath scenarioId viewportKey).1
        screenshotPath = some img := by
    show (if screenshotPath = baselinePathOf config scenarioId viewportKey then
          fsys screenshotPath
        else fsys screenshotPath) = some img
    rw [ite_self]
    exact himg
  unfold ComparisonTs.compareScreenshot ComparisonTs.compare
  simp only [hfs2base, hfs2shot, Option.isNone_some, Bool.false_eq_true, if_false,
    ne_eq, hrefl]
  simp [ComparisonTs.evaluatePass]

/-- Witness for C7: round trip at a concrete single-pixel candidate with
the trivial equality-based diff primitive. -/
theorem copy_to_baseline_roundtrip_witness :
    (ComparisonTs.compareScreenshot sampleConfig
        (fun a b => if a = b then 0 else 1)
        (ComparisonTs.copyToBaseline sampleConfig
          (fun p => if p = "cand.png" then some { width := 1, height := 1, data := [7] } else none)
          "cand.png" "s" "v").1
        "s" "v" "cand.png").passed = true ∧
    (ComparisonTs.compareScreenshot sampleConfig
        (fun a b => if a = b then 0 else 1)
        (ComparisonTs.copyToBaseline sampleConfig
          (fun p => if p = "cand.png" then some { width := 1, height := 1, data := [7] } else none)
          "cand.png" "s" "v").1
        "s" "v" "cand.png").diffPixels = some 0 :=
  copy_to_baseline_roundtrip sampleConfig (fun a b => if a = b then 0 else 1)
    (fun p => if p = "cand.png" then some { width := 1, height := 1, data := [7] } else none)
    "cand.png" "s" "v" { width := 1, height := 1, data := [7] }
    (by decide) (fun a => by simp)

/-- When every capture attempt fails, the retry loop from attempt
`attempt ≤ maxRetries` performs the remaining `maxRetries - attempt + 1`
attempts, inserts one delay per non-final attempt, and surfaces the
error of attempt `maxRetries`. -/
theorem retryFrom_all_fail {E A : Type} (cap : Nat → Except E A) (errf : Nat → E)
    (hfail : ∀ n, cap n = .error (errf n)) (maxRetries retryDelay : Nat) :
    ∀ k attempt, maxRetries = attempt + k →
      ScreenshotTs.retryFrom cap maxRetries retryDelay attempt =
        { result := .error (errf maxRetries), attempts := k + 1,
          delays := List.replicate k retryDelay } := by
  intro k
  induction k with
  | zero =>
      intro attempt h
      have ha : attempt = maxRetries := by omega
      subst ha
      unfold ScreenshotTs.retryFrom
      simp only [hfail]
      rw [dif_neg (lt_irrefl attempt)]
      rfl
  | succ k ih =>
      intro attempt h
      unfold ScreenshotTs.retryFrom
      simp only [hfail]
      rw [dif_pos (show attempt < maxRetries by omega)]
      rw [ih (attempt + 1) (by omega)]
      rfl

/-- C5: if the underlying capture fails on every attempt,
`captureWithRetry` performs exactly `1 + maxRetries` attempts, inserts
the configured `retryDelay` between consecutive attempts, and throws the
error produced by the final attempt. -/
theorem capture_with_retry_exhaustion {E A : Type} (retries : RetryConfig)
    (cap : Nat → Except E A) (errf : Nat → E)
    (hfail : ∀ n, cap n = .error (errf n)) :
    (ScreenshotTs.captureWithRetry cap retries).attempts = 1 + retries.maxRetries ∧
    (ScreenshotTs.captureWithRetry cap retries).delays =
      List.replicate retries.maxRetries retries.retryDelay ∧
    (ScreenshotTs.captureWithRetry cap retries).result =
      .error (errf retries.maxRetries) := by
  have h := retryFrom_all_fail cap errf hfail retries.maxRetries retries.retryDelay
    retries.maxRetries 0 (by omega)
  unfold ScreenshotTs.captureWithRetry
  rw [h]
  refine ⟨?_, rfl, rfl⟩
  show retries.maxRetries + 1 = 1 + retries.maxRetries
  omega

/-- Witness for C5: an always-failing capture with two configured
retries makes exactly three attempts, two delays, and surfaces the final
error. -/
theorem capture_with_retry_exhaustion_witness :
    (ScreenshotTs.captureWithRetry
        (fun _ => (Except.error "navigation timeout" : Except String String))
        { maxRetries := 2, retryDelay := 50 }).attempts = 1 + 2 ∧
    (ScreenshotTs.captureWithRetry
        (fun _ => (Except.error "navigation timeout" : Except String String))
        { maxRetries := 2, retryDelay := 50 }).delays = List.replicate 2 50 ∧
    (ScreenshotTs.captureWithRetry
        (fun _ => (Except.error "navigation timeout" : Except String String))
        { maxRetries := 2, retryDelay := 50 }).result = .error "navigation timeout" :=
  capture_with_retry_exhaustion { maxRetries := 2, retryDelay := 50 }
    (fun _ => .error "navigation timeout") (fun _ => "navigation timeout") (fun _ => rfl)

/-- Sanitizing is the identity on strings made of safe characters. -/
theorem sanitize_map_eq_self (l : List Char)
    (h : ∀ c ∈ l, ScreenshotTs.isSafeFilenameChar c = true) :
    (l.map fun c => if ScreenshotTs.isSafeFilenameChar c then c else '_') = l := by
  induction l with
  | nil => rfl
  | cons x xs ih =>
      simp only [List.map_cons]
      rw [if_pos (h x (List.mem_cons_self x xs)), ih (fun c hc => h c (List.mem_cons_of_mem x hc))]

/-- Unpacking of the `underscoreFreeSafe` check. -/
theorem underscoreFreeSafe_spec (s : String)
    (h : ScreenshotTs.underscoreFreeSafe s = true) :
    ∀ c ∈ s.data, ScreenshotTs.isSafeFilenameChar c = true ∧ c ≠ '_' := by
  intro c hc
  have := (List.all_eq_true.mp h) c hc
  simpa [Bool.and_eq_true] using this

/-- Lists free of underscores can be recovered on both sides of a
double-underscore separator. -/
theorem append_double_underscore_inj : ∀ (a c : List Char) {b d : List Char},
    (∀ x ∈ a, x ≠ '_') → (∀ x ∈ c, x ≠ '_') →
    a ++ '_' :: '_' :: b = c ++ '_' :: '_' :: d → a = c ∧ b = d := by
  intro a
  induction a with
  | nil =>
      intro c b d _ hc h
      cases c with
      | nil => simpa using h
      | cons y ys =>
          exfalso
          simp only [List.nil_append, List.cons_append, List.cons.injEq] at h
          exact hc y (List.mem_cons_self y ys) h.1.symm
  | cons x xs ih =>
      intro c b d ha hc h
      cases c with
      | nil =>
          exfalso
          simp only [List.nil_append, List.cons_append, List.cons.injEq] at h
          exact ha x (List.mem_cons_self x xs) h.1
      | cons y ys =>
          simp only [List.cons_append, List.cons.injEq] at h
          obtain ⟨hxy, htail⟩ := h
          obtain ⟨h1, h2⟩ := ih ys (fun z hz => ha z (List.mem_cons_of_mem x hz))
            (fun z hz => hc z (List.mem_cons_of_mem y hz)) htail
          exact ⟨by rw [hxy, h1], h2⟩

/-- C6, counterexample: `generateFilename` is not collision-free —
distinct scenario ids `a.b` and `a_b` produce the same filename for the
same viewport key, because sanitizing maps `.` to `_`. -/
theorem generateFilename_collision_cex :
    ScreenshotTs.generateFilename "a.b" "k" = ScreenshotTs.generateFilename "a_b" "k" ∧
    ("a.b" : String) ≠ "a_b" := by
  constructor
  · rfl
  · decide

/-- C6, amended: `generateFilename` equals the sanitized
`id__key.png` formula and is deterministic by construction; it is
collision-free on inputs whose characters are safe and
underscore-free (in general, sanitizer collisions such as `a.b`/`a_b`
and separator ambiguity such as `a__b`,`c` / `a`,`b__c` defeat
injectivity). -/
theorem generateFilename_inj_on_safe (id1 key1 id2 key2 : String)
    (hid1 : ScreenshotTs.underscoreFreeSafe id1 = true)
    (hkey1 : ScreenshotTs.underscoreFreeSafe key1 = true)
    (hid2 : ScreenshotTs.underscoreFreeSafe id2 = true)
    (hkey2 : ScreenshotTs.underscoreFreeSafe key2 = true)
    (heq : ScreenshotTs.generateFilename id1 key1 = ScreenshotTs.generateFilename id2 key2) :
    id1 = id2 ∧ key1 = key2 := by
  have hs1 : ScreenshotTs.sanitizeFilenameComponent id1 = id1 :=
    String.ext (sanitize_map_eq_self _ (fun c hc => (underscoreFreeSafe_spec _ hid1 c hc).1))
  have hs2 : ScreenshotTs.sanitizeFilenameComponent key1 = key1 :=
    String.ext (sanitize_map_eq_self _ (fun c hc => (underscoreFreeSafe_spec _ hkey1 c hc).1))
  have hs3 : ScreenshotTs.sanitizeFilenameComponent id2 = id2 :=
    String.ext (sanitize_map_eq_self _ (fun c hc => (underscoreFreeSafe_spec _ hid2 c hc).1))
  have hs4 : ScreenshotTs.sanitizeFilenameComponent key2 = key2 :=
    String.ext (sanitize_map_eq_self _ (fun c hc => (underscoreFreeSafe_spec _ hkey2 c hc).1))
  unfold ScreenshotTs.generateFilename at heq
  rw [hs1, hs2, hs3, hs4] at heq
  have hdata := congrArg String.data heq
  simp only [String.data_append, List.append_assoc] at hdata
  have hdata2 : id1.data ++ '_' :: '_' :: (key1.data ++ ".png".data) =
      id2.data ++ '_' :: '_' :: (key2.data ++ ".png".data) := hdata
  obtain ⟨h1, h2⟩ := append_double_underscore_inj id1.data id2.data
    (fun c hc => (underscoreFreeSafe_spec _ hid1 c hc).2)
    (fun c hc => (underscoreFreeSafe_spec _ hid2 c hc).2) hdata2
  exact ⟨String.ext h1, String.ext (List.append_cancel_right h2)⟩

/-- Witness for C6's amended theorem: injectivity applied at concrete
safe, underscore-free inputs. -/
theorem generateFilename_inj_on_safe_witness :
    ("home" : String) = "home" ∧ ("desktop-1x" : String) = "desktop-1x" :=
  generateFilename_inj_on_safe "home" "desktop-1x" "home" "desktop-1x"
    (by decide) (by decide) (by decide) (by decide) rfl

/-- The interaction loop processes a concatenation of interaction lists
as the concatenation of their event traces. -/
theorem executeInteractions_append (l1 l2 : List Interaction) :
    ScreenshotTs.executeInteractions (l1 ++ l2) =
      ScreenshotTs.executeInteractions l1 ++ ScreenshotTs.executeInteractions l2 := by
  induction l1 with
  | nil => rfl
  | cons i rest ih =>
      simp only [List.cons_append, ScreenshotTs.executeInteractions, List.append_eq, ih,
        List.append_assoc]

/-- C9: an interaction whose kind is not click, type, mouseover or wait
contributes exactly a logged warning (plus its declared settle delay,
which is not a page action) and execution continues with all subsequent
interactions in declaration order; the executor is a total function, so
the unknown kind never raises or aborts. -/
theorem unknown_interaction_skipped (l1 l2 : List Interaction) (i : Interaction)
    (h : i.type ∉ (["click", "type", "mouseover", "wait"] : List String)) :
    ScreenshotTs.executeInteractions (l1 ++ i :: l2) =
      ScreenshotTs.executeInteractions l1 ++
        ((PageEvent.warn ("Unknown interaction type: " ++ i.type) ::
            ScreenshotTs.settleEvents i) ++
          ScreenshotTs.executeInteractions l2) ∧
    (∀ e ∈ ScreenshotTs.settleEvents i, ∃ w, e = PageEvent.waitFor w) := by
  simp only [List.mem_cons, List.mem_singleton, not_or] at h
  obtain ⟨h1, h2, h3, h4⟩ := h
  have h4' : i.type ≠ "wait" := by simpa using h4
  constructor
  · rw [executeInteractions_append]
    have hact : ScreenshotTs.actionEvents i =
        [.warn ("Unknown interaction type: " ++ i.type)] := by
      unfold ScreenshotTs.actionEvents
      rw [if_neg h1, if_neg h2, if_neg h3, if_neg h4']
    have hcons : ScreenshotTs.executeInteractions (i :: l2) =
        (ScreenshotTs.actionEvents i ++ ScreenshotTs.settleEvents i) ++
          ScreenshotTs.executeInteractions l2 := rfl
    rw [hcons, hact]
    simp [List.append_assoc]
  · intro e he
    unfold ScreenshotTs.settleEvents at he
    rw [if_pos h4'] at he
    rcases hm : i.wait_ms with _ | w
    · rw [hm] at he
      simp at he
    · rw [hm] at he
      by_cases h0 : (0 : Int) < w
      · simp [h0] at he
        exact ⟨w, he⟩
      · simp [h0] at he

/-- Witness for C9: an unknown `scroll` interaction with a settle delay,
followed by a click, produces the warning, the delay, then the click. -/
theorem unknown_interaction_skipped_witness :
    ScreenshotTs.executeInteractions
        ([] ++ { type := "scroll", selector := none, value := none,
                 wait_ms := some 5 } ::
          [{ type := "click", selector := some "#go", value := none, wait_ms := none }]) =
      ScreenshotTs.executeInteractions [] ++
        ((PageEvent.warn ("Unknown interaction type: " ++ "scroll") ::
            ScreenshotTs.settleEvents
              { type := "scroll", selector := none, value := none, wait_ms := some 5 }) ++
          ScreenshotTs.executeInteractions
            [{ type := "click", selector := some "#go", value := none, wait_ms := none }]) ∧
    (∀ e ∈ ScreenshotTs.settleEvents
        { type := "scroll", selector := none, value := none, wait_ms := some 5 },
      ∃ w, e = PageEvent.waitFor w) :=
  unknown_interaction_skipped []
    [{ type := "click", selector := some "#go", value := none, wait_ms := none }]
    { type := "scroll", selector := none, value := none, wait_ms := some 5 }
    (by decide)

/-- C10: `replaceDomain` returns the original URL unchanged when the new
domain is absent (null/undefined) or blank, or when the original URL
does not parse; otherwise it returns the new domain with all trailing
slashes removed, concatenated with the parsed URL's pathname, query
string and hash, each preserved exactly. -/
theorem replace_domain_spec (parseUrl : String → Option UrlParts) (originalUrl : String) :
    (UrlTs.replaceDomain parseUrl originalUrl none = originalUrl) ∧
    (∀ d, (d = "" ∨ d.data.all UrlTs.isJsWhitespace = true) →
      UrlTs.replaceDomain parseUrl originalUrl (some d) = originalUrl) ∧
    (∀ d, parseUrl originalUrl = none →
      UrlTs.replaceDomain parseUrl originalUrl (some d) = originalUrl) ∧
    (∀ d parts, ¬(d = "" ∨ d.data.all UrlTs.isJsWhitespace = true) →
      parseUrl originalUrl = some parts →
      UrlTs.replaceDomain parseUrl originalUrl (some d) =
        UrlTs.stripTrailingSlashes d ++ parts.pathname ++ parts.search ++ parts.hash) := by
  refine ⟨rfl, ?_, ?_, ?_⟩
  · intro d hd
    show (if d = "" ∨ d.data.all UrlTs.isJsWhitespace = true then originalUrl
        else match parseUrl originalUrl with
          | none => originalUrl
          | some parts =>
              UrlTs.stripTrailingSlashes d ++ parts.pathname ++ parts.search ++ parts.hash) =
      originalUrl
    rw [if_pos hd]
  · intro d hp
    show (if d = "" ∨ d.data.all UrlTs.isJsWhitespace = true then originalUrl
        else match parseUrl originalUrl with
          | none => originalUrl
          | some parts =>
              UrlTs.stripTrailingSlashes d ++ parts.pathname ++ parts.search ++ parts.hash) =
      originalUrl
    by_cases hd : (d = "" ∨ d.data.all UrlTs.isJsWhitespace = true)
    · rw [if_pos hd]
    · rw [if_neg hd]
      simp [hp]
  · intro d parts hd hp
    show (if d = "" ∨ d.data.all UrlTs.isJsWhitespace = true then originalUrl
        else match parseUrl originalUrl with
          | none => originalUrl
          | some parts =>
              UrlTs.stripTrailingSlashes d ++ parts.pathname ++ parts.search ++ parts.hash) =
      UrlTs.stripTrailingSlashes d ++ parts.pathname ++ parts.search ++ parts.hash
    rw [if_neg hd]
    simp [hp]

/-- Witness for C10: a parseable URL with query and hash, and a new
domain carrying trailing slashes. -/
theorem replace_domain_spec_witness :
    UrlTs.replaceDomain parseFixture "https://local.site/page?q=1#s"
        (some "https://prod.site//") =
      UrlTs.stripTrailingSlashes "https://prod.site//" ++ "/page" ++ "?q=1" ++ "#s" :=
  (replace_domain_spec parseFixture "https://local.site/page?q=1#s").2.2.2
    "https://prod.site//" { pathname := "/page", search := "?q=1", hash := "#s" }
    (by decide) (by decide)

/-- Updating one worker's status changes the in-flight sum by swapping
that worker's contribution. -/
theorem inflight_sum_update {W : Nat} (f : Fin W → WStatus) (w : Fin W) (v : WStatus) :
    (∑ x : Fin W, execMs (Function.update f w v x)) + execMs (f w) =
      (∑ x : Fin W, execMs (f x)) + execMs v := by
  have hpt : ∀ x : Fin W, execMs (Function.update f w v x) =
      Function.update (fun y => execMs (f y)) w (execMs v) x :=
    fun x => Function.apply_update (fun _ st => execMs st) f w v x
  rw [Finset.sum_congr rfl (fun x _ => hpt x)]
  rw [Finset.sum_update_of_mem (Finset.mem_univ w)]
  rw [Finset.sum_eq_sum_diff_singleton_add (Finset.mem_univ w) (fun x => execMs (f x))]
  abel

/-- Successor step for multiset ranges, in additive form. -/
theorem multiset_range_add_one (t : Nat) :
    Multiset.range (t + 1) = {t} + Multiset.range t := by
  rw [Multiset.range_succ, Multiset.singleton_add]

/-- The pool invariant holds initially. -/
theorem poolInv_init (N W : Nat) : PoolInv N (poolInit W) := by
  refine ⟨?_, ?_, rfl⟩
  · simp [poolInit, inflight, execMs]
  · intro w hw
    simp [poolInit] at hw

/-- Holding no task contributes no in-flight index. -/
theorem execMs_idle : execMs .idle = 0 := rfl

/-- A terminated worker contributes no in-flight index. -/
theorem execMs_done : execMs .done = 0 := rfl

/-- An executing worker contributes its claimed index. -/
theorem execMs_executing (i : Nat) : execMs (.executing i) = {i} := rfl

/-- The pool invariant is preserved by every scheduled step. -/
theorem poolInv_step (N : Nat) (outcome : Nat → Bool) {W : Nat} (s : PoolState W)
    (hinv : PoolInv N s) (w : Fin W) : PoolInv N (poolStep N outcome s w) := by
  obtain ⟨h1, h2, h3⟩ := hinv
  rw [show inflight s = ∑ x : Fin W, execMs (s.workers x) from rfl] at h1
  cases hw : s.workers w with
  | idle =>
      by_cases hN : s.taskIndex ≥ N
      · have hstep : poolStep N outcome s w =
            { s with taskIndex := s.taskIndex + 1,
                     workers := Function.update s.workers w .done } := by
          simp only [poolStep, hw]
          rw [if_pos hN]
        rw [hstep]
        refine ⟨?_, ?_, h3⟩
        · have hupd := inflight_sum_update s.workers w .done
          rw [hw, execMs_idle, execMs_done, add_zero, add_zero] at hupd
          show (((s.results.map Prod.fst : List Nat)) : Multiset Nat) +
              (∑ x : Fin W, execMs (Function.update s.workers w WStatus.done x)) =
            Multiset.range (min (s.taskIndex + 1) N)
          rw [hupd, h1]
          rw [min_eq_right hN, min_eq_right (by omega : N ≤ s.taskIndex + 1)]
        · intro w' hw'
          show N ≤ s.taskIndex + 1
          omega
      · push_neg at hN
        have hstep : poolStep N outcome s w =
            { s with taskIndex := s.taskIndex + 1,
                     workers := Function.update s.workers w (.executing s.taskIndex) } := by
          simp only [poolStep, hw]
          rw [if_neg (by omega)]
        rw [hstep]
        refine ⟨?_, ?_, h3⟩
        · have hupd := inflight_sum_update s.workers w (.executing s.taskIndex)
          rw [hw, execMs_idle, execMs_executing, add_zero] at hupd
          show (((s.results.map Prod.fst : List Nat)) : Multiset Nat) +
              (∑ x : Fin W, execMs (Function.update s.workers w (WStatus.executing s.taskIndex) x)) =
            Multiset.range (min (s.taskIndex + 1) N)
          rw [hupd]
          rw [min_eq_left (by omega : s.taskIndex + 1 ≤ N), multiset_range_add_one]
          rw [min_eq_left (by omega : s.taskIndex ≤ N)] at h1
          rw [← h1]
          abel
        · intro w' hw'
          show N ≤ s.taskIndex + 1
          have hw'' : Function.update s.workers w (WStatus.executing s.taskIndex) w' =
              WStatus.done := hw'
          by_cases hww : w' = w
          · subst hww
            rw [Function.update_same] at hw''
            simp at hw''
          · rw [Function.update_noteq hww] at hw''
            have := h2 w' hw''
            omega
  | executing i =>
      have hstep : poolStep N outcome s w =
          { s with results := s.results ++ [(i, outcome i)],
                   completed := s.completed + 1,
                   workers := Function.update s.workers w .idle } := by
        simp only [poolStep, hw]
      rw [hstep]
      refine ⟨?_, ?_, ?_⟩
      · have hupd := inflight_sum_update s.workers w .idle
        rw [hw, execMs_executing, execMs_idle, add_zero] at hupd
        show ((((s.results ++ [(i, outcome i)]).map Prod.fst : List Nat)) : Multiset Nat) +
            (∑ x : Fin W, execMs (Function.update s.workers w WStatus.idle x)) =
          Multiset.range (min s.taskIndex N)
        have hres : ((((s.results ++ [(i, outcome i)]).map Prod.fst : List Nat)) : Multiset Nat) =
            ((s.results.map Prod.fst : List Nat) : Multiset Nat) + {i} := by
          rw [List.map_append, ← Multiset.coe_add]
          rfl
        rw [hres, ← h1, ← hupd]
        abel
      · intro w' hw'
        show N ≤ s.taskIndex
        have hw'' : Function.update s.workers w WStatus.idle w' = WStatus.done := hw'
        by_cases hww : w' = w
        · subst hww
          rw [Function.update_same] at hw''
          simp at hw''
        · rw [Function.update_noteq hww] at hw''
          exact h2 w' hw''
      · show s.completed + 1 = (s.results ++ [(i, outcome i)]).length
        simp [h3]
  | done =>
      have hstep : poolStep N outcome s w = s := by
        simp only [poolStep, hw]
      rw [hstep]
      exact ⟨by rw [show inflight s = ∑ x : Fin W, execMs (s.workers x) from rfl]; exact h1,
        h2, h3⟩

/-- The pool invariant holds after any schedule. -/
theorem poolInv_run (N : Nat) (outcome : Nat → Bool) {W : Nat} (sched : List (Fin W)) :
    PoolInv N (poolRun N outcome sched) := by
  unfold poolRun
  suffices h : ∀ s : PoolState W, PoolInv N s →
      PoolInv N (sched.foldl (poolStep N outcome) s) from h _ (poolInv_init N W)
  induction sched with
  | nil => intro s hs; exact hs
  | cons a rest ih =>
      intro s hs
      exact ih _ (poolInv_step N outcome s hs a)

/-- C3: for any task count `N`, worker count `W` with `1 ≤ W ≤ N`,
task outcomes, and any interleaving that runs all workers to
completion, the recorded task indices are a permutation of
`0, …, N-1` — every task is claimed by exactly one worker and
contributes exactly one result (success or failure) to the shared
accumulator, and the completed counter equals `N`. -/
theorem worker_pool_exactly_once (N W : Nat) (outcome : Nat → Bool)
    (hW : 1 ≤ W) (hWN : W ≤ N) (sched : List (Fin W))
    (hdone : ∀ w, (poolRun N outcome sched).workers w = .done) :
    ((poolRun N outcome sched).results.map Prod.fst).Perm (List.range N) ∧
    (poolRun N outcome sched).results.length = N ∧
    (poolRun N outcome sched).completed = N := by
  obtain ⟨h1, h2, h3⟩ := poolInv_run N outcome sched
  have hinf : inflight (poolRun N outcome sched) = 0 := by
    unfold inflight
    apply Finset.sum_eq_zero
    intro w _
    rw [hdone w]
    rfl
  rw [hinf, add_zero] at h1
  have hN : N ≤ (poolRun N outcome sched).taskIndex :=
    h2 ⟨0, by omega⟩ (hdone ⟨0, by omega⟩)
  rw [min_eq_right hN] at h1
  have hperm : ((poolRun N outcome sched).results.map Prod.fst).Perm (List.range N) :=
    Multiset.coe_eq_coe.mp h1
  have hlen : (poolRun N outcome sched).results.length = N := by
    have hl := hperm.length_eq
    rwa [List.length_map, List.length_range] at hl
  exact ⟨hperm, hlen, h3.trans hlen⟩

/-- Witness for C3: one worker over two tasks under a concrete complete
schedule records exactly tasks 0 and 1. -/
theorem worker_pool_exactly_once_witness :
    ((poolRun 2 (fun _ => true) schedFixture).results.map Prod.fst).Perm (List.range 2) ∧
    (poolRun 2 (fun _ => true) schedFixture).results.length = 2 ∧
    (poolRun 2 (fun _ => true) schedFixture).completed = 2 :=
  worker_pool_exactly_once 2 1 (fun _ => true) (by decide) (by decide)
    schedFixture (by decide)

/-- The unprotected scroll loop's running total after `n` ticks. -/
theorem unprotectedTotalHeight_eq (n : Nat) :
    Stabilizer.unprotectedTotalHeight n = 300 * n := by
  induction n with
  | zero => rfl
  | succ k ih =>
      show Stabilizer.unprotectedTotalHeight k + 300 = 300 * (k + 1)
      rw [ih]
      ring

/-- C8, counterexample: the `triggerLazyLoading` revision in
`screenshot.ts` has no scroll ceiling and no wall-clock timeout; on a
page whose scroll height grows without bound (here always 600px ahead
of the loop), its only exit condition is never satisfied, so the scroll
step does not terminate. -/
theorem unprotected_scroll_divergence_cex :
    (∀ bound : Nat, ∃ n, bound < Stabilizer.runawayPage n) ∧
    ¬ Stabilizer.unprotectedTerminates Stabilizer.runawayPage := by
  constructor
  · intro bound
    refine ⟨bound, ?_⟩
    show bound < 300 * (bound + 2)
    omega
  · rintro ⟨n, hn⟩
    unfold Stabilizer.unprotectedStops at hn
    rw [unprotectedTotalHeight_eq] at hn
    have hle : 300 * (n + 2) ≤ 300 * (n + 1) := hn
    omega

/-- Every tick of the protected scroll loop either finishes at scroll
position 0 or advances the total by 300 while still under the
ceiling. -/
theorem protectedTick_cases (elapsed scrollHeight : Nat → Nat) (n t : Nat) :
    Stabilizer.protectedTick elapsed scrollHeight n t = .finished 0 ∨
      (Stabilizer.protectedTick elapsed scrollHeight n t = .next (t + 300) ∧ t < 50000) := by
  unfold Stabilizer.protectedTick
  by_cases h1 : 30000 < elapsed n
  · rw [if_pos h1]
    exact Or.inl rfl
  · rw [if_neg h1]
    by_cases h2 : 50000 ≤ t
    · rw [if_pos h2]
      exact Or.inl rfl
    · rw [if_neg h2]
      by_cases h3 : scrollHeight n ≤ t + 300
      · rw [if_pos h3]
        exact Or.inl rfl
      · rw [if_neg h3]
        exact Or.inr ⟨rfl, by omega⟩

/-- Past the 50000px ceiling, a tick always finishes at scroll
position 0. -/
theorem protectedTick_finishes_of_ceiling (elapsed scrollHeight : Nat → Nat) (n t : Nat)
    (h : 50000 ≤ t) :
    Stabilizer.protectedTick elapsed scrollHeight n t = .finished 0 := by
  unfold Stabilizer.protectedTick
  by_cases h1 : 30000 < elapsed n
  · rw [if_pos h1]
  · rw [if_neg h1, if_pos h]

/-- C8, amended: the protected `triggerLazyLoading` revision (the one
with the 30s wall-clock timeout and the 50000px scroll ceiling) always
terminates: for every page behaviour and every timing, some tick no
later than tick 167 exits — by document-height coverage, by the
ceiling, or by the timeout — and every exit scrolls back to the top
(`finished 0`). The unprotected revision in `screenshot.ts` lacks the
ceiling and timeout and diverges on unboundedly growing pages. -/
theorem protected_scroll_terminates (elapsed scrollHeight : Nat → Nat) :
    ∃ n, n ≤ 167 ∧ Stabilizer.protectedTick elapsed scrollHeight n
        (Stabilizer.protectedTotal elapsed scrollHeight n) = .finished 0 := by
  by_cases hex : ∃ m, m ≤ 167 ∧ Stabilizer.protectedTick elapsed scrollHeight m
      (Stabilizer.protectedTotal elapsed scrollHeight m) = .finished 0
  · exact hex
  · push_neg at hex
    exfalso
    have htot : ∀ m, m ≤ 167 →
        Stabilizer.protectedTotal elapsed scrollHeight m = 300 * m := by
      intro m
      induction m with
      | zero => intro _; rfl
      | succ k ih =>
          intro hk
          have hk' : k ≤ 167 := by omega
          have h1 := ih hk'
          rcases protectedTick_cases elapsed scrollHeight k
              (Stabilizer.protectedTotal elapsed scrollHeight k) with hf | ⟨hnx, hlt⟩
          · exact absurd hf (hex k hk')
          · show (match Stabilizer.protectedTick elapsed scrollHeight k
                  (Stabilizer.protectedTotal elapsed scrollHeight k) with
                | Stabilizer.ScrollTick.next t => t
                | Stabilizer.ScrollTick.finished _ =>
                    Stabilizer.protectedTotal elapsed scrollHeight k) = 300 * (k + 1)
            rw [hnx]
            show Stabilizer.protectedTotal elapsed scrollHeight k + 300 = 300 * (k + 1)
            rw [h1]
            ring
    have h167 := htot 167 (le_refl 167)
    have hfin : Stabilizer.protectedTick elapsed scrollHeight 167
        (Stabilizer.protectedTotal elapsed scrollHeight 167) = .finished 0 := by
      rw [h167]
      exact protectedTick_finishes_of_ceiling elapsed scrollHeight 167 (300 * 167) (by omega)
    exact hex 167 (le_refl 167) hfin

end VRT
